import Mathlib

/-!
Verification of the JSONLiveLink frame decoder
(`Source/JSONLiveLink/Private/JSONLiveLinkSource.cpp`).

The decoder receives one UDP datagram, turns its bytes into a string,
deserializes that string as JSON, and walks the top-level object: every
key is a subject name and every value a per-subject update that yields a
(SkeletonStaticData, AnimationFrameData) pair pushed to the LiveLink
client, with the subject recorded in `EncounteredSubjects`.

This file shallowly embeds `FJSONLiveLinkSource::HandleReceivedData`
(lines 154-350 of the source).  JSON numbers (C++ `double`) are modelled
as rationals; the C library functions `atan2` and `asin` are abstract
parameters (`MathFns`), since every claim about them is structural or
depends only on `atan2 0 1 = 0` and `asin 0 = 0`.
-/

namespace JSONLiveLink

/-- A JSON value as produced by `FJsonSerializer::Deserialize`.
Objects are association lists in field order; numbers are rationals
standing in for C++ doubles. -/
inductive JsonValue where
  | null
  | bool (b : Bool)
  | num (q : ℚ)
  | str (s : String)
  | arr (elems : List JsonValue)
  | obj (fields : List (String × JsonValue))

/-- Model of `FJsonValue::AsObject`: object values give their field map; every
other kind returns a null shared pointer (modelled as `none`), which the
caller then dereferences. -/
def JsonValue.asObject : JsonValue → Option (List (String × JsonValue))
  | .obj fields => some fields
  | _ => none

/-- Model of `FJsonValue::TryGetNumber(double&)`: numbers give their value,
booleans 0/1, anything else fails.  (UE also parses numeric strings;
no claim depends on that case and it is not modelled.) -/
def JsonValue.tryGetNumber : JsonValue → Option ℚ
  | .num q => some q
  | .bool b => some (if b then 1 else 0)
  | _ => none

/-- Model of `FJsonValue::AsNumber`: `TryGetNumber`, or 0 (with an error log)
when the value is not numeric. -/
def JsonValue.asNumber (v : JsonValue) : ℚ :=
  (v.tryGetNumber).getD 0

/-- Model of `FJsonValue::TryGetString`: only string values succeed. -/
def JsonValue.tryGetString : JsonValue → Option String
  | .str s => some s
  | _ => none

/-- Model of `FJsonObject::TryGetField`: lookup of a field by name. -/
def getField (fields : List (String × JsonValue)) (name : String) :
    Option JsonValue :=
  match fields with
  | [] => none
  | (k, v) :: rest => if k = name then some v else getField rest name

/-- Model of `FJsonObject::TryGetArrayField`: succeeds exactly when the field is
present and holds an array. -/
def tryGetArrayField (fields : List (String × JsonValue)) (name : String) :
    Option (List JsonValue) :=
  match getField fields name with
  | some (.arr xs) => some xs
  | _ => none

/-- Model of `FJsonObject::TryGetStringField`. -/
def tryGetStringField (fields : List (String × JsonValue)) (name : String) :
    Option String :=
  match getField fields name with
  | some v => v.tryGetString
  | none => none

/-- Model of `FJsonObject::TryGetNumberField(const FString&, int32&)`: the field
must be numeric and within int32 range; the double is rounded to the
nearest integer.  (The exact tie-breaking rule of `FMath::RoundToInt`
is irrelevant to every claim.) -/
def tryGetNumberFieldInt (fields : List (String × JsonValue)) (name : String) :
    Option ℤ :=
  match getField fields name with
  | some v =>
    match v.tryGetNumber with
    | some q =>
      if -(2 ^ 31) ≤ q ∧ q ≤ 2 ^ 31 - 1 then some (Rat.floor (q + 1 / 2)) else none
    | none => none
  | none => none

/-- Model of `FJsonObject::TryGetNumberField(const FString&, double&)`. -/
def tryGetNumberField (fields : List (String × JsonValue)) (name : String) :
    Option ℚ :=
  match getField fields name with
  | some v => v.tryGetNumber
  | none => none

/-- The C math functions used at lines 263-267, kept abstract: the
decoder only ever applies them, so every structural property holds for
all interpretations. -/
structure MathFns where
  atan2 : ℚ → ℚ → ℚ
  asin : ℚ → ℚ

/-- Model of `FTransform(BoneQuat, BoneLocation, BoneScale)` as built at line 292. -/
structure Transform where
  rotation : ℚ × ℚ × ℚ × ℚ
  location : ℚ × ℚ × ℚ
  scale : ℚ × ℚ × ℚ
deriving DecidableEq, Repr

/-- The fields of `FLiveLinkSkeletonStaticData` the decoder writes. -/
structure SkeletonStaticData where
  boneNames : List String
  boneParents : List ℤ
  propertyNames : List String
deriving DecidableEq, Repr

/-- The fields of `FLiveLinkAnimationFrameData` the decoder writes.
Property values are stored as C++ floats; the narrowing cast at line 336
is deterministic and value-preserving on every input a claim touches, so
values stay rationals here. -/
structure AnimationFrameData where
  transforms : List Transform
  propertyValues : List ℚ
deriving DecidableEq, Repr

/-- How the decode of one subject can go wrong: `invalidFormat` is the
graceful `return` at the "Invalid Json Format" comments; `nullDeref` is
a method call through the null object pointer that `AsObject` returns
for a non-object value. -/
inductive DecodeErr where
  | invalidFormat
  | nullDeref
deriving DecidableEq, Repr

/-- First bone loop (lines 205-231): for each bone require a string
`Name` field and an integer `Parent` field. -/
def parseBonePass1 : List JsonValue → Except DecodeErr (List (String × ℤ))
  | [] => .ok []
  | bone :: rest =>
    match bone.asObject with
    | none => .error .nullDeref
    | some boneObj =>
      match tryGetStringField boneObj "Name" with
      | none => .error .invalidFormat
      | some name =>
        match tryGetNumberFieldInt boneObj "Parent" with
        | none => .error .invalidFormat
        | some parent =>
          match parseBonePass1 rest with
          | .error e => .error e
          | .ok tl => .ok ((name, parent) :: tl)

/-- The head-orientation triple computed from one bone at lines 263-267,
as a function of that bone alone (the rotation branch of the second bone
loop).  Bones without a well-formed rotation leave the incoming values
unchanged there; this function returns 0 for them and is only ever
applied to bones that parsed successfully. -/
def headOfBone (m : MathFns) (bone : JsonValue) : ℚ × ℚ × ℚ :=
  match bone.asObject with
  | some boneObj =>
    match tryGetArrayField boneObj "Rotation" with
    | some [rx, ry, rz, rw] =>
      let qx := rx.asNumber
      let qy := ry.asNumber
      let qz := rz.asNumber
      let qw := rw.asNumber
      (-(m.atan2 (2 * (qx * qy + qw * qz)) (qw * qw + qx * qx - qy * qy - qz * qz)),
       m.atan2 (2 * (qy * qz + qw * qx)) (qw * qw - qx * qx - qy * qy + qz * qz),
       -(m.asin (-(2 * (qx * qz - qw * qy)))))
    | _ => (0, 0, 0)
  | none => (0, 0, 0)

/-- Second bone loop (lines 233-293): for each bone require a length-3
`Location` array, a length-4 `Rotation` array and a length-3 `Scale`
array; build a transform per bone and overwrite the shared
headRoll/headPitch/headYaw variables on every rotation parse. -/
def parseBonePass2 (m : MathFns) :
    ℚ × ℚ × ℚ → List JsonValue → Except DecodeErr (List Transform × (ℚ × ℚ × ℚ))
  | hv, [] => .ok ([], hv)
  | _hv, bone :: rest =>
    match bone.asObject with
    | none => .error .nullDeref
    | some boneObj =>
      match tryGetArrayField boneObj "Location" with
      | some [lx, ly, lz] =>
        match tryGetArrayField boneObj "Rotation" with
        | some [rx, ry, rz, rw] =>
          match tryGetArrayField boneObj "Scale" with
          | some [sx, sy, sz] =>
            match parseBonePass2 m (headOfBone m bone) rest with
            | .error e => .error e
            | .ok (ts, hv2) =>
              .ok (⟨(rx.asNumber, ry.asNumber, rz.asNumber, rw.asNumber),
                    (lx.asNumber, ly.asNumber, lz.asNumber),
                    (sx.asNumber, sy.asNumber, sz.asNumber)⟩ :: ts, hv2)
          | _ => .error .invalidFormat
        | _ => .error .invalidFormat
      | _ => .error .invalidFormat

/-- First parameter loop (lines 312-327): each entry needs a string
`Name` field. -/
def parseParamNames : List JsonValue → Except DecodeErr (List String)
  | [] => .ok []
  | p :: rest =>
    match p.asObject with
    | none => .error .nullDeref
    | some po =>
      match tryGetStringField po "Name" with
      | none => .error .invalidFormat
      | some n =>
        match parseParamNames rest with
        | .error e => .error e
        | .ok tl => .ok (n :: tl)

/-- Second parameter loop (lines 329-342): each entry needs a numeric
`Value` field. -/
def parseParamValues : List JsonValue → Except DecodeErr (List ℚ)
  | [] => .ok []
  | p :: rest =>
    match p.asObject with
    | none => .error .nullDeref
    | some po =>
      match tryGetNumberField po "Value" with
      | none => .error .invalidFormat
      | some v =>
        match parseParamValues rest with
        | .error e => .error e
        | .ok tl => .ok (v :: tl)

/-- Decode of the fields of one subject object (loop body, lines
187-343).  Head values start at 0 (lines 194-196).  When a `Bone` array
is present both bone loops run; when a `Parameter` array is present the
property arrays get length k+3, the three fixed head slots written at
indices k..k+2 before the loops fill 0..k-1, so on success the content
is the parsed entries followed by the head triple. -/
def decodeSubjectFields (m : MathFns) (fields : List (String × JsonValue)) :
    Except DecodeErr (SkeletonStaticData × AnimationFrameData) :=
  match
    (match tryGetArrayField fields "Bone" with
     | none => Except.ok ([], [], [], ((0 : ℚ), (0 : ℚ), (0 : ℚ)))
     | some bones =>
       match parseBonePass1 bones with
       | .error e => .error e
       | .ok namesParents =>
         match parseBonePass2 m (0, 0, 0) bones with
         | .error e => .error e
         | .ok (ts, hv) =>
           .ok (namesParents.map Prod.fst, namesParents.map Prod.snd, ts, hv) :
      Except DecodeErr (List String × List ℤ × List Transform × (ℚ × ℚ × ℚ)))
  with
  | .error e => .error e
  | .ok (bn, bp, ts, hv) =>
    match tryGetArrayField fields "Parameter" with
    | none => .ok (⟨bn, bp, []⟩, ⟨ts, []⟩)
    | some params =>
      match parseParamNames params with
      | .error e => .error e
      | .ok pns =>
        match parseParamValues params with
        | .error e => .error e
        | .ok pvs =>
          .ok (⟨bn, bp, pns ++ ["headRoll", "headPitch", "headYaw"]⟩,
               ⟨ts, pvs ++ [hv.1, hv.2.1, hv.2.2]⟩)

/-- Outcome of the loop body for one subject value. -/
inductive SubjectResult where
  | ok (sd : SkeletonStaticData) (fd : AnimationFrameData)
  | invalidFormat
  | fault
deriving DecidableEq, Repr

/-- Test for `SubjectResult.ok` as a Boolean. -/
def SubjectResult.isOk : SubjectResult → Bool
  | .ok _ _ => true
  | .invalidFormat => false
  | .fault => false

/-- One iteration of the per-subject loop (lines 173-348): line 175
calls `AsObject` on the subject value; a non-object gives a null
pointer, and the `TryGetArrayField` call at line 198 through it faults. -/
def decodeSubject (m : MathFns) (v : JsonValue) : SubjectResult :=
  match v.asObject with
  | none => .fault
  | some fields =>
    match decodeSubjectFields m fields with
    | .ok (sd, fd) => .ok sd fd
    | .error .invalidFormat => .invalidFormat
    | .error .nullDeref => .fault

/-- One observable interaction with the LiveLink client or the
`EncounteredSubjects` set (lines 345-347). -/
inductive PushEvent where
  | pushStatic (subject : String) (sd : SkeletonStaticData)
  | registerSubject (subject : String)
  | pushFrame (subject : String) (fd : AnimationFrameData)
deriving DecidableEq, Repr

/-- The subject name an event concerns. -/
def PushEvent.subject : PushEvent → String
  | .pushStatic n _ => n
  | .registerSubject n => n
  | .pushFrame n _ => n

/-- How processing of a whole datagram ends: normally, by the early
`return` on an invalid format (which abandons the remaining subjects of
the datagram), or by a fault. -/
inductive DatagramOutcome where
  | completed
  | abortedInvalid
  | faulted
deriving DecidableEq, Repr

/-- The top-level subject loop (lines 173-348) with the
`EncounteredSubjects` set threaded through.  Per subject, in source
order: compute `bCreateSubject` (line 181, never read afterwards),
decode, and on success push static data, record the subject, push frame
data.  Returns the emitted events, the final registry and the outcome. -/
def processSubjects (m : MathFns) :
    List String → List (String × JsonValue) →
    List PushEvent × List String × DatagramOutcome
  | registry, [] => ([], registry, .completed)
  | registry, (name, v) :: rest =>
    let _bCreateSubject := !(registry.contains name)
    match decodeSubject m v with
    | .ok sd fd =>
      let r := processSubjects m (registry ++ [name]) rest
      (.pushStatic name sd :: .registerSubject name :: .pushFrame name fd :: r.1,
       r.2)
    | .invalidFormat => ([], registry, .abortedInvalid)
    | .fault => ([], registry, .faulted)

/-- Model of `HandleReceivedData` after string conversion: deserialize (only a
top-level JSON object succeeds into the `FJsonObject` out-parameter,
anything else silently discards the datagram, line 171) and run the
subject loop. -/
def handleReceivedData (m : MathFns) (registry : List String) (root : JsonValue) :
    List PushEvent × List String × DatagramOutcome :=
  match root.asObject with
  | some fields => processSubjects m registry fields
  | none => ([], registry, .completed)

/-- Lines 156-161: the payload bytes are appended to the string one at a
time, each byte widened to a TCHAR (16-bit) code unit of the same
numeric value.  Strings are modelled as lists of code units. -/
def bytesToString (bytes : List Nat) : List Nat :=
  bytes.map (fun b => b % 65536)

/-- A UTF-8 continuation byte (10xxxxxx). -/
def isCont (x : Nat) : Bool := decide (0x80 ≤ x ∧ x < 0xC0)

/-- Lead byte of a two-byte sequence (0xC2-0xDF; 0xC0/0xC1 are overlong). -/
def isLead2 (x : Nat) : Bool := decide (0xC2 ≤ x ∧ x < 0xE0)

/-- Lead byte of a three-byte sequence. -/
def isLead3 (x : Nat) : Bool := decide (0xE0 ≤ x ∧ x < 0xF0)

/-- Lead byte of a four-byte sequence (0xF5 and above is out of range). -/
def isLead4 (x : Nat) : Bool := decide (0xF0 ≤ x ∧ x < 0xF5)

/-- Code point encoded by a two-byte UTF-8 sequence. -/
def codePoint2 (b b2 : Nat) : Nat := (b - 0xC0) * 0x40 + (b2 - 0x80)

/-- Code point encoded by a three-byte UTF-8 sequence. -/
def codePoint3 (b b2 b3 : Nat) : Nat :=
  (b - 0xE0) * 0x1000 + (b2 - 0x80) * 0x40 + (b3 - 0x80)

/-- Code point encoded by a four-byte UTF-8 sequence. -/
def codePoint4 (b b2 b3 b4 : Nat) : Nat :=
  (b - 0xF0) * 0x40000 + (b2 - 0x80) * 0x1000 + (b3 - 0x80) * 0x40 + (b4 - 0x80)

/-- Validity of a three-byte sequence: continuation bytes, not overlong,
not a surrogate. -/
def valid3 (b b2 b3 : Nat) : Bool :=
  isCont b2 && isCont b3 &&
    decide (0x800 ≤ codePoint3 b b2 b3) &&
    !decide (0xD800 ≤ codePoint3 b b2 b3 ∧ codePoint3 b b2 b3 < 0xE000)

/-- Validity of a four-byte sequence: continuation bytes and in-range
code point. -/
def valid4 (b b2 b3 b4 : Nat) : Bool :=
  isCont b2 && isCont b3 && isCont b4 &&
    decide (0x10000 ≤ codePoint4 b b2 b3 b4 ∧ codePoint4 b b2 b3 b4 < 0x110000)

/-- Tail of a two-byte sequence: one continuation byte. -/
def utf8Step2 (b : Nat) : List Nat → Option (Nat × List Nat)
  | b2 :: rest2 => if isCont b2 then some (codePoint2 b b2, rest2) else none
  | [] => none

/-- Tail of a three-byte sequence: two continuation bytes, not overlong,
not a surrogate. -/
def utf8Step3 (b : Nat) : List Nat → Option (Nat × List Nat)
  | b2 :: b3 :: rest3 =>
    if valid3 b b2 b3 then some (codePoint3 b b2 b3, rest3) else none
  | _ => none

/-- Tail of a four-byte sequence: three continuation bytes and an
in-range code point. -/
def utf8Step4 (b : Nat) : List Nat → Option (Nat × List Nat)
  | b2 :: b3 :: b4 :: rest4 =>
    if valid4 b b2 b3 b4 then some (codePoint4 b b2 b3 b4, rest4) else none
  | _ => none

/-- One UTF-8 sequence decoded from the front: the code point and the
bytes that remain. -/
def utf8Step (b : Nat) (rest : List Nat) : Option (Nat × List Nat) :=
  if b < 0x80 then some (b, rest)
  else if isLead2 b then utf8Step2 b rest
  else if isLead3 b then utf8Step3 b rest
  else if isLead4 b then utf8Step4 b rest
  else none

/-- Decoding loop; the fuel argument only bounds recursion depth and
never runs out when it starts at the byte count, since every step
consumes at least one byte. -/
def utf8DecodeAux : Nat → List Nat → Option (List Nat)
  | _, [] => some []
  | 0, _ :: _ => none
  | fuel + 1, b :: rest =>
    match utf8Step b rest with
    | none => none
    | some (cp, rest2) => (utf8DecodeAux fuel rest2).map (fun cs => cp :: cs)

/-- Modelled from the spec: "payload interpreted as UTF-8 text" — the
UTF-8 decoding facility itself is a platform library, not part of this
repository.  Standard UTF-8 decoding of bytes to Unicode code points,
rejecting truncated, overlong, surrogate and out-of-range sequences. -/
def utf8Decode (bytes : List Nat) : Option (List Nat) :=
  utf8DecodeAux bytes.length bytes

/-! ## Concrete sample inputs

Used by witnesses and counterexamples.  `mathZero` is one concrete
interpretation of the abstract math functions. -/

/-- A trivial interpretation of `atan2` and `asin` (their values are
irrelevant to the structural claims; this one satisfies
`atan2 0 1 = 0` and `asin 0 = 0` like the C functions do). -/
def mathZero : MathFns := ⟨fun _ _ => 0, fun _ => 0⟩

/-- The bone of the concrete scenario in the spec: name `root`, parent
-1, identity transform. -/
def sampleBone : JsonValue :=
  .obj [("Name", .str "root"), ("Parent", .num (-1)),
        ("Location", .arr [.num 0, .num 0, .num 0]),
        ("Rotation", .arr [.num 0, .num 0, .num 0, .num 1]),
        ("Scale", .arr [.num 1, .num 1, .num 1])]

/-- A second well-formed bone with a non-identity rotation. -/
def sampleBone2 : JsonValue :=
  .obj [("Name", .str "head"), ("Parent", .num 0),
        ("Location", .arr [.num 1, .num 2, .num 3]),
        ("Rotation", .arr [.num 1, .num 2, .num 3, .num 4]),
        ("Scale", .arr [.num 1, .num 1, .num 1])]

/-- The parameter entry of the concrete scenario in the spec. -/
def sampleParam : JsonValue :=
  .obj [("Name", .str "blink"), ("Value", .num (1 / 2))]

/-- Fields of the concrete scenario subject from the spec. -/
def sampleFields : List (String × JsonValue) :=
  [("Bone", .arr [sampleBone]), ("Parameter", .arr [sampleParam])]

/-- A subject with neither a `Bone` nor a `Parameter` field: decodes to
empty static and frame data. -/
def emptySubject : JsonValue := .obj []

/-- A malformed subject: its single bone is missing the `Name` field. -/
def badNameSubject : JsonValue :=
  .obj [("Bone", .arr [.obj [("Parent", .num 0)]])]

/-- A subject with one well-formed bone and no `Parameter` field. -/
def boneOnlySubject : JsonValue := .obj [("Bone", .arr [sampleBone])]

/-- A subject with one well-formed bone and an empty `Parameter` array. -/
def emptyParamSubject : JsonValue :=
  .obj [("Bone", .arr [sampleBone]), ("Parameter", .arr [])]

/-! ## Helper lemmas -/

theorem parseBonePass1_length {bones : List JsonValue} {nps : List (String × ℤ)}
    (h : parseBonePass1 bones = .ok nps) : nps.length = bones.length := by
  induction bones generalizing nps with
  | nil =>
    simp only [parseBonePass1] at h
    cases h
    rfl
  | cons b rest ih =>
    simp only [parseBonePass1] at h
    split at h
    · exact absurd h (by simp)
    · split at h
      · exact absurd h (by simp)
      · split at h
        · exact absurd h (by simp)
        · split at h
          · exact absurd h (by simp)
          · cases h
            simp only [List.length_cons]
            rename_i _ _ _ _ tl hrest
            rw [ih hrest]

theorem parseBonePass2_length {m : MathFns} {hv : ℚ × ℚ × ℚ}
    {bones : List JsonValue} {ts : List Transform} {hv2 : ℚ × ℚ × ℚ}
    (h : parseBonePass2 m hv bones = .ok (ts, hv2)) : ts.length = bones.length := by
  induction bones generalizing hv ts hv2 with
  | nil =>
    simp only [parseBonePass2] at h
    cases h
    rfl
  | cons b rest ih =>
    simp only [parseBonePass2] at h
    split at h
    · exact absurd h (by simp)
    · split at h
      · split at h
        · split at h
          · split at h
            · exact absurd h (by simp)
            · cases h
              simp only [List.length_cons]
              rename_i _ _ _ _ _ _ tl hv3 hrest
              rw [ih hrest]
          · exact absurd h (by simp)
        · exact absurd h (by simp)
      · exact absurd h (by simp)

theorem parseBonePass2_head_last {m : MathFns} {hv : ℚ × ℚ × ℚ}
    {bones : List JsonValue} {ts : List Transform} {hv2 : ℚ × ℚ × ℚ} {lb : JsonValue}
    (h : parseBonePass2 m hv bones = .ok (ts, hv2))
    (hlast : bones.getLast? = some lb) : hv2 = headOfBone m lb := by
  induction bones generalizing hv ts hv2 with
  | nil => simp at hlast
  | cons b rest ih =>
    simp only [parseBonePass2] at h
    split at h
    · exact absurd h (by simp)
    · split at h
      · split at h
        · split at h
          · split at h
            · exact absurd h (by simp)
            · cases h
              rename_i _ _ _ _ _ _ tl hv3 hrest
              cases hr : rest with
              | nil =>
                subst hr
                simp only [parseBonePass2] at hrest
                cases hrest
                simp only [List.getLast?_singleton] at hlast
                cases hlast
                rfl
              | cons r rs =>
                subst hr
                have : (b :: r :: rs).getLast? = (r :: rs).getLast? := by
                  simp [List.getLast?]
                rw [this] at hlast
                exact ih hrest hlast
          · exact absurd h (by simp)
        · exact absurd h (by simp)
      · exact absurd h (by simp)

theorem parseParamNames_length {params : List JsonValue} {pns : List String}
    (h : parseParamNames params = .ok pns) : pns.length = params.length := by
  induction params generalizing pns with
  | nil =>
    simp only [parseParamNames] at h
    cases h
    rfl
  | cons p rest ih =>
    simp only [parseParamNames] at h
    split at h
    · exact absurd h (by simp)
    · split at h
      · exact absurd h (by simp)
      · split at h
        · exact absurd h (by simp)
        · cases h
          simp only [List.length_cons]
          rename_i _ _ _ tl hrest
          rw [ih hrest]

theorem parseParamValues_length {params : List JsonValue} {pvs : List ℚ}
    (h : parseParamValues params = .ok pvs) : pvs.length = params.length := by
  induction params generalizing pvs with
  | nil =>
    simp only [parseParamValues] at h
    cases h
    rfl
  | cons p rest ih =>
    simp only [parseParamValues] at h
    split at h
    · exact absurd h (by simp)
    · split at h
      · exact absurd h (by simp)
      · split at h
        · exact absurd h (by simp)
        · cases h
          simp only [List.length_cons]
          rename_i _ _ _ tl hrest
          rw [ih hrest]

theorem decodeSubject_obj_ok {m : MathFns} {fields : List (String × JsonValue)}
    {sd : SkeletonStaticData} {fd : AnimationFrameData}
    (h : decodeSubject m (.obj fields) = .ok sd fd) :
    decodeSubjectFields m fields = .ok (sd, fd) := by
  unfold decodeSubject at h
  simp only [JsonValue.asObject] at h
  rcases hE : decodeSubjectFields m fields with e | p
  · rw [hE] at h
    rcases e <;> simp at h
  · rw [hE] at h
    rcases p with ⟨sd2, fd2⟩
    simp only [SubjectResult.ok.injEq] at h
    rw [h.1, h.2]

theorem isOk_iff {r : SubjectResult} :
    r.isOk = true ↔ ∃ sd fd, r = .ok sd fd := by
  cases r <;> simp [SubjectResult.isOk]

theorem decodeSubjectFields_ok_bone_param {m : MathFns}
    {fields : List (String × JsonValue)} {bones params : List JsonValue}
    {sd : SkeletonStaticData} {fd : AnimationFrameData}
    (hB : tryGetArrayField fields "Bone" = some bones)
    (hP : tryGetArrayField fields "Parameter" = some params)
    (h : decodeSubjectFields m fields = .ok (sd, fd)) :
    ∃ nps ts hv pns pvs,
      parseBonePass1 bones = .ok nps ∧
      parseBonePass2 m (0, 0, 0) bones = .ok (ts, hv) ∧
      parseParamNames params = .ok pns ∧
      parseParamValues params = .ok pvs ∧
      sd = ⟨nps.map Prod.fst, nps.map Prod.snd,
            pns ++ ["headRoll", "headPitch", "headYaw"]⟩ ∧
      fd = ⟨ts, pvs ++ [hv.1, hv.2.1, hv.2.2]⟩ := by
  unfold decodeSubjectFields at h
  rw [hB, hP] at h
  dsimp only at h
  rcases h1 : parseBonePass1 bones with e | nps <;> rw [h1] at h
  · simp at h
  rcases h2 : parseBonePass2 m (0, 0, 0) bones with e | tshv <;> rw [h2] at h
  · simp at h
  rcases tshv with ⟨ts, hv⟩
  rcases h3 : parseParamNames params with e | pns <;> rw [h3] at h
  · simp at h
  rcases h4 : parseParamValues params with e | pvs <;> rw [h4] at h
  · simp at h
  simp only [Except.ok.injEq, Prod.mk.injEq] at h
  exact ⟨nps, ts, hv, pns, pvs, rfl, rfl, rfl, rfl, h.1.symm, h.2.symm⟩

theorem decodeSubjectFields_ok_param_none {m : MathFns}
    {fields : List (String × JsonValue)}
    {sd : SkeletonStaticData} {fd : AnimationFrameData}
    (hP : tryGetArrayField fields "Parameter" = none)
    (h : decodeSubjectFields m fields = .ok (sd, fd)) :
    sd.propertyNames = [] ∧ fd.propertyValues = [] := by
  unfold decodeSubjectFields at h
  rw [hP] at h
  dsimp only at h
  rcases hBone : tryGetArrayField fields "Bone" with _ | bones <;>
    rw [hBone] at h <;> dsimp only at h
  · simp only [Except.ok.injEq, Prod.mk.injEq] at h
    rw [← h.1, ← h.2]
    exact ⟨rfl, rfl⟩
  · rcases h1 : parseBonePass1 bones with e | nps <;> rw [h1] at h
    · simp at h
    rcases h2 : parseBonePass2 m (0, 0, 0) bones with e | tshv <;> rw [h2] at h
    · simp at h
    rcases tshv with ⟨ts, hv⟩
    simp only [Except.ok.injEq, Prod.mk.injEq] at h
    rw [← h.1, ← h.2]
    exact ⟨rfl, rfl⟩

theorem processSubjects_event_subject {m : MathFns} {registry : List String}
    {fields : List (String × JsonValue)} {e : PushEvent}
    (he : e ∈ (processSubjects m registry fields).1) :
    e.subject ∈ fields.map Prod.fst := by
  induction fields generalizing registry with
  | nil => simp [processSubjects] at he
  | cons p rest ih =>
    rcases p with ⟨name, v⟩
    simp only [processSubjects] at he
    rcases hd : decodeSubject m v with ⟨sd, fd⟩ | _ | _ <;> rw [hd] at he
    · simp only [List.mem_cons] at he
      rcases he with h1 | h1 | h1 | h1
      · rw [h1]; simp [PushEvent.subject]
      · rw [h1]; simp [PushEvent.subject]
      · rw [h1]; simp [PushEvent.subject]
      · have := ih h1
        simp only [List.map_cons, List.mem_cons]
        exact Or.inr this
    · simp at he
    · simp at he

theorem processSubjects_registry_mem {m : MathFns} {registry : List String}
    {fields : List (String × JsonValue)} {n : String}
    (hn : n ∈ (processSubjects m registry fields).2.1) :
    n ∈ registry ∨ n ∈ fields.map Prod.fst := by
  induction fields generalizing registry with
  | nil =>
    simp only [processSubjects] at hn
    exact Or.inl hn
  | cons p rest ih =>
    rcases p with ⟨name, v⟩
    simp only [processSubjects] at hn
    rcases hd : decodeSubject m v with ⟨sd, fd⟩ | _ | _ <;> rw [hd] at hn
    · rcases ih hn with h1 | h1
      · simp only [List.mem_append, List.mem_singleton] at h1
        rcases h1 with h2 | h2
        · exact Or.inl h2
        · simp [h2]
      · simp [h1]
    · exact Or.inl hn
    · exact Or.inl hn

/-! ## Claims -/

/-- C7: decoding is deterministic and idempotent with respect to
registry state — the events a datagram produces (hence each pushed
(SkeletonStaticData, AnimationFrameData) pair, field for field) and the
abort behaviour do not depend on the contents of `EncounteredSubjects`;
in particular decoding the same datagram again, with the registry state
the first decode left behind, emits an identical event list. -/
theorem C7_decode_registry_independent (m : MathFns) (reg1 reg2 : List String)
    (fields : List (String × JsonValue)) :
    ((processSubjects m reg1 fields).1 = (processSubjects m reg2 fields).1 ∧
     (processSubjects m reg1 fields).2.2 = (processSubjects m reg2 fields).2.2) ∧
    (processSubjects m ((processSubjects m reg1 fields).2.1) fields).1 =
      (processSubjects m reg1 fields).1 := by
  have main : ∀ (r1 r2 : List String),
      (processSubjects m r1 fields).1 = (processSubjects m r2 fields).1 ∧
      (processSubjects m r1 fields).2.2 = (processSubjects m r2 fields).2.2 := by
    intro r1 r2
    induction fields generalizing r1 r2 with
    | nil => exact ⟨rfl, rfl⟩
    | cons p rest ih =>
      rcases p with ⟨name, v⟩
      have h2 := ih (r1 ++ [name]) (r2 ++ [name])
      simp only [processSubjects]
      rcases hd : decodeSubject m v with ⟨sd, fd⟩ | _ | _
      · exact ⟨by rw [h2.1], by rw [h2.2]⟩
      · exact ⟨rfl, rfl⟩
      · exact ⟨rfl, rfl⟩
  exact ⟨main reg1 reg2, (main ((processSubjects m reg1 fields).2.1) reg1).1⟩

/-- C6: for a successfully decoded subject the decoder pushes static
data, then records the subject in the registry, then pushes frame data,
in that order, and it does so for every registry state — in particular
also when the subject is already registered, so the computed
"is this a new subject" flag gates nothing. -/
theorem C6_push_order (m : MathFns) (registry : List String) (name : String)
    (v : JsonValue) (rest : List (String × JsonValue))
    (sd : SkeletonStaticData) (fd : AnimationFrameData)
    (hok : decodeSubject m v = .ok sd fd) :
    (processSubjects m registry ((name, v) :: rest)).1 =
      .pushStatic name sd :: .registerSubject name :: .pushFrame name fd ::
        (processSubjects m (registry ++ [name]) rest).1 := by
  simp only [processSubjects, hok]

/-- C6 witness: the subject of the concrete spec scenario, decoded while
its name is already in the registry: all three events are still emitted,
in order. -/
theorem C6_push_order_witness :
    (processSubjects mathZero ["Head"] [("Head", .obj sampleFields)]).1 =
      .pushStatic "Head"
          ⟨["root"], [-1], ["blink", "headRoll", "headPitch", "headYaw"]⟩ ::
        .registerSubject "Head" ::
          .pushFrame "Head"
            ⟨[⟨(0, 0, 0, 1), (0, 0, 0), (1, 1, 1)⟩], [1 / 2, 0, 0, 0]⟩ ::
            (processSubjects mathZero (["Head"] ++ ["Head"]) []).1 :=
  C6_push_order mathZero ["Head"] "Head" (.obj sampleFields) []
    ⟨["root"], [-1], ["blink", "headRoll", "headPitch", "headYaw"]⟩
    ⟨[⟨(0, 0, 0, 1), (0, 0, 0), (1, 1, 1)⟩], [1 / 2, 0, 0, 0]⟩
    (by with_unfolding_all rfl)

/-- C9: the decoder is not total on datagrams whose top-level value is a
JSON object — when a subject value, a `Bone` element or a `Parameter`
element is itself not a JSON object, `AsObject` returns a null pointer
and the following method call dereferences it; the model records these
three inputs as faulting rather than being handled. -/
theorem C9_nonobject_faults :
    (processSubjects mathZero [] [("s", .num 5)]).2.2 = .faulted ∧
    decodeSubject mathZero (.num 5) = .fault ∧
    decodeSubject mathZero (.obj [("Bone", .arr [.num 1])]) = .fault ∧
    decodeSubject mathZero (.obj [("Parameter", .arr [.str "x"])]) = .fault := by
  refine ⟨?_, ?_, ?_, ?_⟩ <;> with_unfolding_all rfl

/-- C2 (counterexample): the byte pair 0xC3 0xA9 is the valid UTF-8
encoding of the single code point 0xE9, but the string handed to the
JSON parser consists of the two code units 0xC3 0xA9 — not the Unicode
text those bytes encode, refuting the claim for multi-byte sequences. -/
theorem C2_utf8_counterexample :
    utf8Decode [0xC3, 0xA9] = some [0xE9] ∧
    bytesToString [0xC3, 0xA9] ≠ [0xE9] := by
  refine ⟨rfl, ?_⟩
  decide

/-- C2 (amended): the decoder widens each payload byte to one 16-bit
code unit of the same value, so the string handed to the JSON parser is
the text encoded by the bytes exactly when the payload is pure ASCII
(every byte below 0x80). -/
theorem C2_ascii_agrees_with_utf8 (bytes : List Nat)
    (h : ∀ b ∈ bytes, b < 0x80) :
    utf8Decode bytes = some (bytesToString bytes) := by
  unfold utf8Decode
  induction bytes with
  | nil => rfl
  | cons b rest ih =>
    have hb : b < 0x80 := h b (List.mem_cons_self b rest)
    have hrest := ih (fun x hx => h x (List.mem_cons_of_mem b hx))
    have hmod : b % 65536 = b := Nat.mod_eq_of_lt (lt_trans hb (by norm_num))
    have hstep : utf8Step b rest = some (b, rest) := by
      unfold utf8Step
      rw [if_pos hb]
    simp only [List.length_cons, utf8DecodeAux, hstep, hrest]
    simp [bytesToString, hmod]

/-- C2 witness: the ASCII payload "hi" is decoded to itself. -/
theorem C2_ascii_agrees_with_utf8_witness :
    utf8Decode [0x68, 0x69] = some (bytesToString [0x68, 0x69]) :=
  C2_ascii_agrees_with_utf8 [0x68, 0x69] (by decide)

/-- C3: a successfully decoded subject with N bones and k parameters has
bone_names, bone_parents and transforms of length N and property arrays
of length k+3, the parsed parameter names in slots 0..k-1 and the three
fixed names headRoll, headPitch, headYaw in the last three slots. -/
theorem C3_array_lengths (m : MathFns) (fields : List (String × JsonValue))
    (bones params : List JsonValue) (sd : SkeletonStaticData)
    (fd : AnimationFrameData)
    (hB : tryGetArrayField fields "Bone" = some bones)
    (hP : tryGetArrayField fields "Parameter" = some params)
    (hok : decodeSubject m (.obj fields) = .ok sd fd) :
    sd.boneNames.length = bones.length ∧
    sd.boneParents.length = bones.length ∧
    fd.transforms.length = bones.length ∧
    sd.propertyNames.length = params.length + 3 ∧
    fd.propertyValues.length = params.length + 3 ∧
    sd.propertyNames.drop params.length = ["headRoll", "headPitch", "headYaw"] ∧
    (∃ pns, parseParamNames params = .ok pns ∧
      sd.propertyNames = pns ++ ["headRoll", "headPitch", "headYaw"]) := by
  obtain ⟨nps, ts, hv, pns, pvs, h1, h2, h3, h4, hsd, hfd⟩ :=
    decodeSubjectFields_ok_bone_param hB hP (decodeSubject_obj_ok hok)
  subst hsd
  subst hfd
  have l1 := parseBonePass1_length h1
  have l2 := parseBonePass2_length h2
  have l3 := parseParamNames_length h3
  have l4 := parseParamValues_length h4
  refine ⟨by simp [l1], by simp [l1], l2, by simp [l3], by simp [l4], ?_, pns, h3, rfl⟩
  show List.drop params.length (pns ++ ["headRoll", "headPitch", "headYaw"]) = _
  rw [← l3, List.drop_left]

/-- C3 witness: the concrete spec scenario, one bone and one parameter. -/
theorem C3_array_lengths_witness :
    tryGetArrayField sampleFields "Bone" = some [sampleBone] ∧
    tryGetArrayField sampleFields "Parameter" = some [sampleParam] ∧
    (let sd : SkeletonStaticData :=
        ⟨["root"], [-1], ["blink", "headRoll", "headPitch", "headYaw"]⟩
     let fd : AnimationFrameData :=
        ⟨[⟨(0, 0, 0, 1), (0, 0, 0), (1, 1, 1)⟩], [1 / 2, 0, 0, 0]⟩
     sd.boneNames.length = [sampleBone].length ∧
     sd.boneParents.length = [sampleBone].length ∧
     fd.transforms.length = [sampleBone].length ∧
     sd.propertyNames.length = [sampleParam].length + 3 ∧
     fd.propertyValues.length = [sampleParam].length + 3 ∧
     sd.propertyNames.drop [sampleParam].length =
       ["headRoll", "headPitch", "headYaw"] ∧
     (∃ pns, parseParamNames [sampleParam] = .ok pns ∧
       sd.propertyNames = pns ++ ["headRoll", "headPitch", "headYaw"])) :=
  ⟨rfl, rfl,
    C3_array_lengths mathZero sampleFields [sampleBone] [sampleParam]
      ⟨["root"], [-1], ["blink", "headRoll", "headPitch", "headYaw"]⟩
      ⟨[⟨(0, 0, 0, 1), (0, 0, 0), (1, 1, 1)⟩], [1 / 2, 0, 0, 0]⟩
      rfl rfl (by with_unfolding_all rfl)⟩

/-- C4: the pushed head-orientation slots hold exactly the three
formulas applied to the quaternion of the last entry of the Bone array,
however many bones precede it. -/
theorem C4_head_from_last_bone (m : MathFns) (fields : List (String × JsonValue))
    (bones params : List JsonValue) (sd : SkeletonStaticData)
    (fd : AnimationFrameData) (lb : JsonValue)
    (lbo : List (String × JsonValue)) (rx ry rz rw : JsonValue)
    (hB : tryGetArrayField fields "Bone" = some bones)
    (hP : tryGetArrayField fields "Parameter" = some params)
    (hok : decodeSubject m (.obj fields) = .ok sd fd)
    (hlast : bones.getLast? = some lb)
    (hobj : lb.asObject = some lbo)
    (hrot : tryGetArrayField lbo "Rotation" = some [rx, ry, rz, rw]) :
    fd.propertyValues.drop params.length =
      [-(m.atan2 (2 * (rx.asNumber * ry.asNumber + rw.asNumber * rz.asNumber))
          (rw.asNumber * rw.asNumber + rx.asNumber * rx.asNumber -
            ry.asNumber * ry.asNumber - rz.asNumber * rz.asNumber)),
       m.atan2 (2 * (ry.asNumber * rz.asNumber + rw.asNumber * rx.asNumber))
          (rw.asNumber * rw.asNumber - rx.asNumber * rx.asNumber -
            ry.asNumber * ry.asNumber + rz.asNumber * rz.asNumber),
       -(m.asin (-(2 * (rx.asNumber * rz.asNumber - rw.asNumber * ry.asNumber))))] := by
  obtain ⟨nps, ts, hv, pns, pvs, h1, h2, h3, h4, hsd, hfd⟩ :=
    decodeSubjectFields_ok_bone_param hB hP (decodeSubject_obj_ok hok)
  subst hfd
  have l4 := parseParamValues_length h4
  have hhv := parseBonePass2_head_last h2 hlast
  show List.drop params.length (pvs ++ [hv.1, hv.2.1, hv.2.2]) = _
  rw [← l4, List.drop_left, hhv]
  simp only [headOfBone, hobj, hrot]

/-- C4 witness: two bones; the head slots come from the second
(last) bone, whose rotation is [1,2,3,4]. -/
theorem C4_head_from_last_bone_witness :
    (let fd : AnimationFrameData :=
        ⟨[⟨(0, 0, 0, 1), (0, 0, 0), (1, 1, 1)⟩,
          ⟨(1, 2, 3, 4), (1, 2, 3), (1, 1, 1)⟩],
         [-(mathZero.atan2 (2 * (1 * 2 + 4 * 3)) (4 * 4 + 1 * 1 - 2 * 2 - 3 * 3)),
          mathZero.atan2 (2 * (2 * 3 + 4 * 1)) (4 * 4 - 1 * 1 - 2 * 2 + 3 * 3),
          -(mathZero.asin (-(2 * (1 * 3 - 4 * 2))))]⟩
     fd.propertyValues.drop ([] : List JsonValue).length =
      [-(mathZero.atan2
          (2 * ((JsonValue.num 1).asNumber * (JsonValue.num 2).asNumber +
            (JsonValue.num 4).asNumber * (JsonValue.num 3).asNumber))
          ((JsonValue.num 4).asNumber * (JsonValue.num 4).asNumber +
            (JsonValue.num 1).asNumber * (JsonValue.num 1).asNumber -
            (JsonValue.num 2).asNumber * (JsonValue.num 2).asNumber -
            (JsonValue.num 3).asNumber * (JsonValue.num 3).asNumber)),
       mathZero.atan2
          (2 * ((JsonValue.num 2).asNumber * (JsonValue.num 3).asNumber +
            (JsonValue.num 4).asNumber * (JsonValue.num 1).asNumber))
          ((JsonValue.num 4).asNumber * (JsonValue.num 4).asNumber -
            (JsonValue.num 1).asNumber * (JsonValue.num 1).asNumber -
            (JsonValue.num 2).asNumber * (JsonValue.num 2).asNumber +
            (JsonValue.num 3).asNumber * (JsonValue.num 3).asNumber),
       -(mathZero.asin
          (-(2 * ((JsonValue.num 1).asNumber * (JsonValue.num 3).asNumber -
            (JsonValue.num 4).asNumber * (JsonValue.num 2).asNumber))))]) :=
  C4_head_from_last_bone mathZero
    [("Bone", .arr [sampleBone, sampleBone2]), ("Parameter", .arr [])]
    [sampleBone, sampleBone2] []
    ⟨["root", "head"], [-1, 0], ["headRoll", "headPitch", "headYaw"]⟩
    ⟨[⟨(0, 0, 0, 1), (0, 0, 0), (1, 1, 1)⟩,
      ⟨(1, 2, 3, 4), (1, 2, 3), (1, 1, 1)⟩],
     [-(mathZero.atan2 (2 * (1 * 2 + 4 * 3)) (4 * 4 + 1 * 1 - 2 * 2 - 3 * 3)),
      mathZero.atan2 (2 * (2 * 3 + 4 * 1)) (4 * 4 - 1 * 1 - 2 * 2 + 3 * 3),
      -(mathZero.asin (-(2 * (1 * 3 - 4 * 2))))]⟩
    sampleBone2
    [("Name", .str "head"), ("Parent", .num 0),
     ("Location", .arr [.num 1, .num 2, .num 3]),
     ("Rotation", .arr [.num 1, .num 2, .num 3, .num 4]),
     ("Scale", .arr [.num 1, .num 1, .num 1])]
    (.num 1) (.num 2) (.num 3) (.num 4)
    rfl rfl (by with_unfolding_all rfl) rfl rfl rfl

/-- C8: a bone whose rotation is the identity quaternion [0,0,0,1]
yields head values roll = pitch = yaw = 0, given only that the math
functions satisfy atan2(0,1) = 0 and asin(0) = 0 (exactly true of the
C functions at these arguments). -/
theorem C8_identity_rotation_zero (m : MathFns) (bone : JsonValue)
    (bo : List (String × JsonValue))
    (hobj : bone.asObject = some bo)
    (hrot : tryGetArrayField bo "Rotation" =
      some [.num 0, .num 0, .num 0, .num 1])
    (h1 : m.atan2 0 1 = 0) (h2 : m.asin 0 = 0) :
    headOfBone m bone = (0, 0, 0) := by
  simp only [headOfBone, hobj, hrot]
  norm_num [JsonValue.asNumber, JsonValue.tryGetNumber, h1, h2]

/-- C8 witness: the sample bone carries the identity rotation. -/
theorem C8_identity_rotation_zero_witness :
    headOfBone mathZero sampleBone = (0, 0, 0) :=
  C8_identity_rotation_zero mathZero sampleBone
    [("Name", .str "root"), ("Parent", .num (-1)),
     ("Location", .arr [.num 0, .num 0, .num 0]),
     ("Rotation", .arr [.num 0, .num 0, .num 0, .num 1]),
     ("Scale", .arr [.num 1, .num 1, .num 1])]
    rfl rfl rfl rfl

/-- C10: property data exists only when a Parameter array field is
present — without one the pushed property arrays are empty and the head
values computed during the bone pass are discarded; with an empty
Parameter array the pushed properties are exactly the three fixed head
entries and nothing else. -/
theorem C10_head_props_require_parameter_field (m : MathFns)
    (fields : List (String × JsonValue)) (bones : List JsonValue)
    (sd : SkeletonStaticData) (fd : AnimationFrameData)
    (hB : tryGetArrayField fields "Bone" = some bones)
    (hok : decodeSubject m (.obj fields) = .ok sd fd) :
    (tryGetArrayField fields "Parameter" = none →
      sd.propertyNames = [] ∧ fd.propertyValues = []) ∧
    (tryGetArrayField fields "Parameter" = some [] →
      sd.propertyNames = ["headRoll", "headPitch", "headYaw"] ∧
      fd.propertyValues.length = 3) := by
  constructor
  · intro hP
    exact decodeSubjectFields_ok_param_none hP (decodeSubject_obj_ok hok)
  · intro hP
    obtain ⟨nps, ts, hv, pns, pvs, h1, h2, h3, h4, hsd, hfd⟩ :=
      decodeSubjectFields_ok_bone_param hB hP (decodeSubject_obj_ok hok)
    subst hsd
    subst hfd
    have l3 := parseParamNames_length h3
    have l4 := parseParamValues_length h4
    simp only [List.length_nil] at l3 l4
    rw [List.length_eq_zero] at l3 l4
    subst l3
    subst l4
    exact ⟨rfl, rfl⟩

/-- C10 witness: a subject with one bone and no Parameter field pushes
no properties; the same subject with an empty Parameter array pushes
exactly the three head entries. -/
theorem C10_head_props_require_parameter_field_witness :
    ((⟨["root"], [-1], []⟩ : SkeletonStaticData).propertyNames = [] ∧
     (⟨[⟨(0, 0, 0, 1), (0, 0, 0), (1, 1, 1)⟩], []⟩ :
        AnimationFrameData).propertyValues = []) ∧
    ((⟨["root"], [-1], ["headRoll", "headPitch", "headYaw"]⟩ :
        SkeletonStaticData).propertyNames =
          ["headRoll", "headPitch", "headYaw"] ∧
     (⟨[⟨(0, 0, 0, 1), (0, 0, 0), (1, 1, 1)⟩], [0, 0, 0]⟩ :
        AnimationFrameData).propertyValues.length = 3) :=
  ⟨(C10_head_props_require_parameter_field mathZero
      [("Bone", .arr [sampleBone])] [sampleBone]
      ⟨["root"], [-1], []⟩
      ⟨[⟨(0, 0, 0, 1), (0, 0, 0), (1, 1, 1)⟩], []⟩
      rfl (by with_unfolding_all rfl)).1 rfl,
   (C10_head_props_require_parameter_field mathZero
      [("Bone", .arr [sampleBone]), ("Parameter", .arr [])] [sampleBone]
      ⟨["root"], [-1], ["headRoll", "headPitch", "headYaw"]⟩
      ⟨[⟨(0, 0, 0, 1), (0, 0, 0), (1, 1, 1)⟩], [0, 0, 0]⟩
      rfl (by with_unfolding_all rfl)).2 rfl⟩

/-- C5: a structural defect in one subject is fail-fast and
all-or-nothing for that subject — no push event carries its name and it
is never added to the registry, whatever was parsed before the defect. -/
theorem C5_fail_fast_all_or_nothing (m : MathFns) (registry : List String)
    (pre post : List (String × JsonValue)) (name : String) (v : JsonValue)
    (hbad : decodeSubject m v = .invalidFormat)
    (hpre : name ∉ pre.map Prod.fst)
    (hreg : name ∉ registry) :
    (∀ e ∈ (processSubjects m registry (pre ++ (name, v) :: post)).1,
        e.subject ≠ name) ∧
    name ∉ (processSubjects m registry (pre ++ (name, v) :: post)).2.1 := by
  induction pre generalizing registry with
  | nil =>
    simp only [List.nil_append, processSubjects, hbad]
    exact ⟨by intro e he; simp at he, hreg⟩
  | cons p pre2 ih =>
    rcases p with ⟨n, w⟩
    have hnn : n ≠ name := by
      intro hEq
      exact hpre (by simp [hEq])
    have hpre2 : name ∉ pre2.map Prod.fst := by
      intro hmem
      exact hpre (by simp [hmem])
    simp only [List.cons_append, processSubjects]
    rcases hd : decodeSubject m w with ⟨sd, fd⟩ | _ | _
    · have hreg2 : name ∉ registry ++ [n] := by
        intro hmem
        rcases List.mem_append.mp hmem with hmem2 | hmem2
        · exact hreg hmem2
        · exact hnn (List.mem_singleton.mp hmem2).symm
      have h2 := ih (registry ++ [n]) hpre2 hreg2
      refine ⟨?_, h2.2⟩
      intro e he
      simp only [List.mem_cons] at he
      rcases he with h3 | h3 | h3 | h3
      · rw [h3]; exact fun hc => hnn hc
      · rw [h3]; exact fun hc => hnn hc
      · rw [h3]; exact fun hc => hnn hc
      · exact h2.1 e h3
    · exact ⟨by intro e he; simp at he, hreg⟩
    · exact ⟨by intro e he; simp at he, hreg⟩

/-- C5 witness: subject B has a bone missing its Name field, between two
well-formed subjects A and C: no event names B and B is not registered. -/
theorem C5_fail_fast_all_or_nothing_witness :
    (∀ e ∈ (processSubjects mathZero []
        ([("A", emptySubject)] ++ ("B", badNameSubject) ::
          [("C", emptySubject)])).1,
        e.subject ≠ "B") ∧
    "B" ∉ (processSubjects mathZero []
        ([("A", emptySubject)] ++ ("B", badNameSubject) ::
          [("C", emptySubject)])).2.1 :=
  C5_fail_fast_all_or_nothing mathZero [] [("A", emptySubject)]
    [("C", emptySubject)] "B" badNameSubject
    (by with_unfolding_all rfl) (by decide) (by decide)

/-- C1 (counterexample): subject A is malformed (a bone missing Name)
and subject B, later in the same datagram, is well formed, yet the
datagram produces no events at all — B is not decoded and nothing is
pushed for it, refuting the claim that other subjects are unaffected. -/
theorem C1_counterexample :
    (decodeSubject mathZero emptySubject).isOk = true ∧
    processSubjects mathZero [] [("A", badNameSubject), ("B", emptySubject)] =
      ([], [], .abortedInvalid) := by
  constructor
  · with_unfolding_all rfl
  · with_unfolding_all rfl

/-- C1 (amended): a malformed subject update aborts its own decode with
nothing pushed for it, and subjects earlier in the iteration order of
the datagram are decoded and pushed normally — but the early return
abandons the rest of the datagram, so subjects after the malformed one
are not decoded either: the whole event list of the datagram is exactly that
of the prefix before the malformed subject. -/
theorem C1_abort_stops_datagram (m : MathFns) (registry : List String)
    (pre post : List (String × JsonValue)) (name : String) (v : JsonValue)
    (hpre : ∀ p ∈ pre, (decodeSubject m p.2).isOk = true)
    (hbad : decodeSubject m v = .invalidFormat) :
    (processSubjects m registry (pre ++ (name, v) :: post)).1 =
      (processSubjects m registry pre).1 ∧
    (processSubjects m registry (pre ++ (name, v) :: post)).2.2 =
      .abortedInvalid ∧
    (name ∉ pre.map Prod.fst →
      ∀ e ∈ (processSubjects m registry (pre ++ (name, v) :: post)).1,
        e.subject ≠ name) := by
  have main : ∀ (pre2 : List (String × JsonValue)) (reg : List String),
      (∀ p ∈ pre2, (decodeSubject m p.2).isOk = true) →
      (processSubjects m reg (pre2 ++ (name, v) :: post)).1 =
        (processSubjects m reg pre2).1 ∧
      (processSubjects m reg (pre2 ++ (name, v) :: post)).2.2 =
        .abortedInvalid := by
    intro pre2
    induction pre2 with
    | nil =>
      intro reg _
      simp only [List.nil_append, processSubjects, hbad]
      exact ⟨by trivial, by trivial⟩
    | cons p pre3 ih =>
      intro reg hp
      rcases p with ⟨n, w⟩
      obtain ⟨sd, fd, hw⟩ := isOk_iff.mp (hp (n, w) (List.mem_cons_self _ _))
      have hp2 : ∀ q ∈ pre3, (decodeSubject m q.2).isOk = true :=
        fun q hq => hp q (List.mem_cons_of_mem _ hq)
      have h2 := ih (reg ++ [n]) hp2
      simp only [List.cons_append, List.append_eq, processSubjects, hw]
      exact ⟨by rw [h2.1], h2.2⟩
  refine ⟨(main pre registry hpre).1, (main pre registry hpre).2, ?_⟩
  intro hname e he
  rw [(main pre registry hpre).1] at he
  have := processSubjects_event_subject he
  intro hc
  rw [hc] at this
  exact hname this

/-- C1 witness: well-formed A, malformed B, well-formed C — the events
are exactly those of [A], the outcome is the abort, and no event
names B. -/
theorem C1_abort_stops_datagram_witness :
    (processSubjects mathZero []
        ([("A", emptySubject)] ++ ("B", badNameSubject) ::
          [("C", emptySubject)])).1 =
      (processSubjects mathZero [] [("A", emptySubject)]).1 ∧
    (processSubjects mathZero []
        ([("A", emptySubject)] ++ ("B", badNameSubject) ::
          [("C", emptySubject)])).2.2 = .abortedInvalid ∧
    ("B" ∉ ([("A", emptySubject)] : List (String × JsonValue)).map Prod.fst →
      ∀ e ∈ (processSubjects mathZero []
          ([("A", emptySubject)] ++ ("B", badNameSubject) ::
            [("C", emptySubject)])).1,
        e.subject ≠ "B") :=
  C1_abort_stops_datagram mathZero [] [("A", emptySubject)]
    [("C", emptySubject)] "B" badNameSubject
    (by intro p hp; simp only [List.mem_singleton] at hp; rw [hp];
        with_unfolding_all rfl)
    (by with_unfolding_all rfl)

end JSONLiveLink
